import Mathlib

/-!
Shallow embedding of the plugin-dashboard reconciler
(pkg/services/plugindashboards/service/dashboard_updater.go).

The external collaborators (plugin store, plugin-dashboard catalog,
dashboard service, dashboard-import service, plugin-settings service)
are modelled as an environment that prescribes the result of each call.
Each function of the source is transcribed as a Lean function that
returns the ordered trace of store-mutation calls it performs together
with the outcome the Go function would return (or, for void functions,
just the trace).
-/

namespace DashboardUpdater

/-- Error values returned by the external collaborators (the error
taxonomy of the design: NotFound, StoreUnavailable, CatalogUnavailable,
ValidationError). The reconciler never inspects the error beyond
propagating or logging it. -/
inductive Err where
  | notFound (msg : String)
  | storeUnavailable (msg : String)
  | catalogUnavailable (msg : String)
  | validation (msg : String)
deriving DecidableEq

/-- Opaque dashboard payload (simplejson dashboard data in the source). -/
abbrev Payload := String

/-- Organization role string (models.RoleType in the source). -/
abbrev RoleType := String

/-- models.ROLE_ADMIN. -/
def ROLE_ADMIN : RoleType := "Admin"

/-- models.SignedInUser, restricted to the fields the updater sets. -/
structure SignedInUser where
  userId : Int
  orgRole : RoleType
  orgId : Int
deriving DecidableEq

/-- plugindashboards.PluginDashboard: one catalog record for an
(organization, plugin) pair. -/
structure PluginDashboard where
  pluginId : String
  orgId : Int
  reference : String
  revision : Int
  importedRevision : Int
  removed : Bool
  dashboardId : Int
  slug : String
deriving DecidableEq

/-- plugins.Info, restricted to the Version field the updater reads. -/
structure PluginInfo where
  version : String
deriving DecidableEq

/-- plugins.PluginDTO, restricted to the fields the updater reads. -/
structure PluginDTO where
  id : String
  info : PluginInfo
deriving DecidableEq

/-- models.PluginSetting: per (organization, plugin) settings row. -/
structure PluginSetting where
  orgId : Int
  pluginId : String
  enabled : Bool
  pluginVersion : String
deriving DecidableEq

/-- models.Dashboard, restricted to the fields the teardown path reads. -/
structure Dashboard where
  id : Int
  orgId : Int
  slug : String
deriving DecidableEq

/-- models.PluginStateChangedEvent. -/
structure PluginStateChangedEvent where
  pluginId : String
  orgId : Int
  enabled : Bool
deriving DecidableEq

/-- dashboardimport.ImportDashboardRequest, restricted to the fields the
updater sets. -/
structure ImportDashboardRequest where
  pluginId : String
  user : SignedInUser
  path : String
  folderId : Int
  dashboard : Payload
  overwrite : Bool
  inputs : Option Unit
deriving DecidableEq

/-- A store-mutation call issued by the reconciler. -/
inductive Effect where
  | deleteDashboard (dashboardId : Int) (orgId : Int)
  | importDashboard (req : ImportDashboardRequest)
  | updatePluginSettingVersion (orgId : Int) (pluginId : String) (pluginVersion : String)
deriving DecidableEq

/-- The environment: the result each external call returns during one
pass. Each field corresponds to one collaborator method used by the
source. `assignedId` is modelled from the spec: the Dashboard Store's
identifier for the dashboard stored at a given (organization, reference)
key after an import (the import pipeline is outside the excerpt). -/
structure Env where
  getPluginSettings : Except Err (List PluginSetting)
  plugin : String → Option PluginDTO
  listPluginDashboards : Int → String → Except Err (List PluginDashboard)
  loadPluginDashboard : String → String → Except Err Payload
  importDashboard : ImportDashboardRequest → Except Err Unit
  deleteDashboard : Int → Int → Except Err Unit
  getPluginSettingById : String → Int → Except Err PluginSetting
  updatePluginSettingVersion : Int → String → String → Except Err Unit
  getDashboardsByPluginId : String → Int → Except Err (List Dashboard)
  assignedId : Int → String → Int

/-- Transcription of DashboardUpdater.autoUpdateAppDashboard
(dashboard_updater.go lines 160-181): load the dashboard payload by
reference, then import it with a synthetic admin user, folder 0,
overwrite, and nil inputs. Returns the mutation trace and the error the
Go function returns. -/
def autoUpdateAppDashboard (env : Env) (pluginDashInfo : PluginDashboard) (orgID : Int) :
    List Effect × Except Err Unit :=
  match env.loadPluginDashboard pluginDashInfo.pluginId pluginDashInfo.reference with
  | .error e => ([], .error e)
  | .ok payload =>
    let req : ImportDashboardRequest :=
      { pluginId := pluginDashInfo.pluginId
        user := { userId := 0, orgRole := ROLE_ADMIN, orgId := orgID }
        path := pluginDashInfo.reference
        folderId := 0
        dashboard := payload
        overwrite := true
        inputs := none }
    ([Effect.importDashboard req], env.importDashboard req)

/-- The body of the per-record loop of syncPluginDashboards
(dashboard_updater.go lines 92-111): a removed record is deleted (and
never imported); otherwise a record whose imported revision differs from
its revision is auto-updated; otherwise nothing happens. -/
def recordStep (env : Env) (orgID : Int) (dash : PluginDashboard) :
    List Effect × Except Err Unit :=
  if dash.removed then
    ([Effect.deleteDashboard dash.dashboardId orgID],
      env.deleteDashboard dash.dashboardId orgID)
  else if dash.importedRevision ≠ dash.revision then
    autoUpdateAppDashboard env dash orgID
  else
    ([], .ok ())

/-- The per-record loop of syncPluginDashboards (lines 92-112): records
are processed in catalog order; the first failing step ends the loop
(early return in the source). -/
def syncLoop (env : Env) (orgID : Int) : List PluginDashboard → List Effect × Except Err Unit
  | [] => ([], .ok ())
  | dash :: rest =>
    match (recordStep env orgID dash).2 with
    | .error e => ((recordStep env orgID dash).1, .error e)
    | .ok _ =>
      ((recordStep env orgID dash).1 ++ (syncLoop env orgID rest).1,
        (syncLoop env orgID rest).2)

/-- Transcription of DashboardUpdater.syncPluginDashboards (lines
77-131). The Go function returns nothing: every failure is logged and
ends the pass. The value here is the ordered trace of mutation calls the
pass makes: nothing on a catalog-list failure; the loop trace if the
loop fails or if the final settings read fails; otherwise the loop trace
followed by the UpdatePluginSettingVersion call built from the settings
row that was read back and the plugin's current version. -/
def syncPluginDashboards (env : Env) (plugin : PluginDTO) (orgID : Int) : List Effect :=
  match env.listPluginDashboards orgID plugin.id with
  | .error _ => []
  | .ok items =>
    match (syncLoop env orgID items).2 with
    | .error _ => (syncLoop env orgID items).1
    | .ok _ =>
      match env.getPluginSettingById plugin.id orgID with
      | .error _ => (syncLoop env orgID items).1
      | .ok appSetting =>
        (syncLoop env orgID items).1 ++
          [Effect.updatePluginSettingVersion appSetting.orgId appSetting.pluginId
            plugin.info.version]

/-- The deletion loop of the disabled branch of handlePluginStateChanged
(lines 149-154): delete each stored dashboard; the first failure is
returned immediately. -/
def teardownLoop (env : Env) : List Dashboard → List Effect × Except Err Unit
  | [] => ([], .ok ())
  | dash :: rest =>
    match env.deleteDashboard dash.id dash.orgId with
    | .error e => ([Effect.deleteDashboard dash.id dash.orgId], .error e)
    | .ok _ =>
      (Effect.deleteDashboard dash.id dash.orgId :: (teardownLoop env rest).1,
        (teardownLoop env rest).2)

/-- Transcription of DashboardUpdater.handlePluginStateChanged (lines
133-158): on enabled, a missing plugin yields an error and otherwise a
sync pass runs and the handler returns nil; on disabled, the stored
dashboards of the plugin are looked up and deleted one by one, the first
failure being returned. -/
def handlePluginStateChanged (env : Env) (event : PluginStateChangedEvent) :
    List Effect × Except Err Unit :=
  if event.enabled then
    match env.plugin event.pluginId with
    | none =>
      ([], .error (Err.notFound
        ("plugin " ++ event.pluginId ++ " not found. Could not sync plugin dashboards")))
    | some p => (syncPluginDashboards env p event.orgId, .ok ())
  else
    match env.getDashboardsByPluginId event.pluginId event.orgId with
    | .error e => ([], .error e)
    | .ok dashboards => teardownLoop env dashboards

/-- The row loop of DashboardUpdater.updateAppDashboards (lines 63-74):
disabled rows are skipped, rows whose plugin is absent from the plugin
store are skipped, and a sync pass is invoked exactly when the plugin is
found and its version differs from the row's recorded version. The value
is the list of sync-pass invocations (plugin, organization). -/
def updateAppDashboardsLoop (env : Env) : List PluginSetting → List (PluginDTO × Int)
  | [] => []
  | ps :: rest =>
    if !ps.enabled then
      updateAppDashboardsLoop env rest
    else
      match env.plugin ps.pluginId with
      | some pluginDef =>
        if pluginDef.info.version ≠ ps.pluginVersion then
          (pluginDef, ps.orgId) :: updateAppDashboardsLoop env rest
        else
          updateAppDashboardsLoop env rest
      | none => updateAppDashboardsLoop env rest

/-- Transcription of DashboardUpdater.updateAppDashboards (lines 54-75):
the startup sweep. A failure to list the settings aborts the whole sweep
with no invocation. -/
def updateAppDashboards (env : Env) : List (PluginDTO × Int) :=
  match env.getPluginSettings with
  | .error _ => []
  | .ok pluginSettings => updateAppDashboardsLoop env pluginSettings

/-- Whether the external call behind a mutation effect succeeds in the
given environment. -/
def effectOk (env : Env) : Effect → Bool
  | .deleteDashboard i o =>
    match env.deleteDashboard i o with
    | .ok _ => true
    | .error _ => false
  | .importDashboard req =>
    match env.importDashboard req with
    | .ok _ => true
    | .error _ => false
  | .updatePluginSettingVersion o p v =>
    match env.updatePluginSettingVersion o p v with
    | .ok _ => true
    | .error _ => false

/-- Modelled from the spec: the record the Dashboard Store keeps for one
(organization, reference) key — its store identifier and its payload
(the store itself is outside the excerpt). -/
structure StoredDash where
  id : Int
  data : Payload
deriving DecidableEq

/-- Modelled from the spec: the observable state of the Dashboard Store
(dashboards keyed by (organization, reference)) and of the Settings
Store's last-synchronized version (keyed by (organization, plugin)). -/
structure StoreState where
  dashboards : Int × String → Option StoredDash
  versions : Int × String → Option String

/-- Modelled from the spec: the state change of one successful mutation
call. Deletion removes the dashboard with the given store identifier in
the given organization; import upserts the dashboard at the request's
(organization, reference) key with overwrite semantics; the version
write records the new last-synchronized version for the (organization,
plugin) key. -/
def applyEffectOk (env : Env) (s : StoreState) : Effect → StoreState
  | .deleteDashboard i o =>
    { s with dashboards := fun k =>
        match s.dashboards k with
        | some d => if k.1 == o && d.id == i then none else some d
        | none => none }
  | .importDashboard req =>
    { s with dashboards := fun k =>
        if k.1 == req.user.orgId && k.2 == req.path then
          some { id := env.assignedId req.user.orgId req.path, data := req.dashboard }
        else s.dashboards k }
  | .updatePluginSettingVersion o p v =>
    { s with versions := fun k =>
        if k.1 == o && k.2 == p then some v else s.versions k }

/-- Modelled from the spec: a failed call leaves state exactly as it was
before the in-flight call (no partial commit of an individual call). -/
def applyEffect (env : Env) (s : StoreState) (e : Effect) : StoreState :=
  if effectOk env e then applyEffectOk env s e else s

/-- Apply a trace of mutation calls to a store state, in order. -/
def applyTrace (env : Env) (s : StoreState) : List Effect → StoreState
  | [] => s
  | e :: rest => applyTrace env (applyEffect env s e) rest

/-- The action of one mutation call on one key of one store component:
it leaves the key alone, writes a constant value, or keeps the current
value only when a predicate holds. -/
inductive KStep (R : Type) where
  | idk : KStep R
  | wr : Option R → KStep R
  | filt : (R → Bool) → KStep R

/-- Evaluate a per-key step. -/
def KStep.app {R : Type} : KStep R → Option R → Option R
  | .idk, o => o
  | .wr v, _ => v
  | .filt p, o =>
    match o with
    | some r => if p r then some r else none
    | none => none

/-- Evaluate a list of per-key steps, first step first. -/
def applyK {R : Type} : List (KStep R) → Option R → Option R
  | [], o => o
  | st :: rest, o => applyK rest (st.app o)

/-- Whether some step in the list is a constant write. -/
def hasWr {R : Type} : List (KStep R) → Bool
  | [] => false
  | KStep.wr _ :: _ => true
  | _ :: rest => hasWr rest

/-- The action of a mutation call on the dashboards component at key
`k`, as a per-key step. -/
def dashKStep (env : Env) (k : Int × String) : Effect → KStep StoredDash
  | .deleteDashboard i o =>
    if effectOk env (.deleteDashboard i o) then
      KStep.filt (fun d => !(k.1 == o && d.id == i))
    else KStep.idk
  | .importDashboard req =>
    if effectOk env (.importDashboard req) && (k.1 == req.user.orgId && k.2 == req.path) then
      KStep.wr (some { id := env.assignedId req.user.orgId req.path, data := req.dashboard })
    else KStep.idk
  | .updatePluginSettingVersion _ _ _ => KStep.idk

/-- The action of a mutation call on the versions component at key `k`,
as a per-key step. -/
def verKStep (env : Env) (k : Int × String) : Effect → KStep String
  | .updatePluginSettingVersion o p v =>
    if effectOk env (.updatePluginSettingVersion o p v) && (k.1 == o && k.2 == p) then
      KStep.wr (some v)
    else KStep.idk
  | _ => KStep.idk

/-- Boolean test for the version-write effect. -/
def isUpd : Effect → Bool
  | .updatePluginSettingVersion _ _ _ => true
  | _ => false

/-- Concrete data: plugin "app" at version 2.0. -/
def pW : PluginDTO := { id := "app", info := { version := "2.0" } }

/-- Concrete data: the error a failing store call returns. -/
def wErr : Err := Err.storeUnavailable "dashboard store unavailable"

/-- Concrete data: a removed catalog record whose deletion succeeds. -/
def wOkRec : PluginDashboard :=
  { pluginId := "app", orgId := 1, reference := "d1.json", revision := 2,
    importedRevision := 2, removed := true, dashboardId := 1, slug := "d1" }

/-- Concrete data: a removed catalog record with a revision mismatch;
its deletion fails in envW1. -/
def wFailRec : PluginDashboard :=
  { pluginId := "app", orgId := 1, reference := "d2.json", revision := 2,
    importedRevision := 1, removed := true, dashboardId := 2, slug := "d2" }

/-- Concrete data: a revision-changed record needing an import. -/
def wPostRec : PluginDashboard :=
  { pluginId := "app", orgId := 1, reference := "d3.json", revision := 2,
    importedRevision := 1, removed := false, dashboardId := 3, slug := "d3" }

/-- Concrete data: the catalog listing used by the environments below. -/
def itemsW : List PluginDashboard := [wOkRec, wFailRec, wPostRec]

/-- Concrete data: the settings row read back before the version write. -/
def settingW : PluginSetting :=
  { orgId := 1, pluginId := "app", enabled := true, pluginVersion := "1.0" }

/-- Concrete environment: deletion succeeds only for store identifier 1,
so a sync pass over itemsW fails at wFailRec. -/
def envW1 : Env :=
  { getPluginSettings := .ok []
    plugin := fun pid => if pid == "app" then some pW else none
    listPluginDashboards := fun _ _ => .ok itemsW
    loadPluginDashboard := fun _ ref => .ok ref
    importDashboard := fun _ => .ok ()
    deleteDashboard := fun i _ => if i == 1 then .ok () else .error wErr
    getPluginSettingById := fun pid o =>
      .ok { orgId := o, pluginId := pid, enabled := true, pluginVersion := "1.0" }
    updatePluginSettingVersion := fun _ _ _ => .ok ()
    getDashboardsByPluginId := fun _ _ => .ok []
    assignedId := fun _ _ => 100 }

/-- Concrete environment: every mutation succeeds. -/
def envW6 : Env := { envW1 with deleteDashboard := fun _ _ => .ok () }

/-- Concrete environment: empty catalog, everything else succeeds. -/
def envW8 : Env := { envW6 with listPluginDashboards := fun _ _ => .ok [] }

/-- Concrete environment: the final version write fails. -/
def envW9 : Env := { envW6 with updatePluginSettingVersion := fun _ _ _ => .error wErr }

/-- Concrete data: a stored dashboard of plugin "app". -/
def dashA : Dashboard := { id := 1, orgId := 1, slug := "a" }

/-- Concrete data: a second stored dashboard of plugin "app". -/
def dashB : Dashboard := { id := 2, orgId := 1, slug := "b" }

/-- Concrete environment: teardown over two dashboards, all deletions
succeeding. -/
def envW3 : Env :=
  { envW6 with getDashboardsByPluginId := fun _ _ => .ok [dashA, dashB] }

/-- Sweep row: enabled, version differs from the registry. -/
def psEnabledDiff : PluginSetting :=
  { orgId := 1, pluginId := "app", enabled := true, pluginVersion := "1.0" }

/-- Sweep row: disabled. -/
def psDisabled : PluginSetting :=
  { orgId := 2, pluginId := "app", enabled := false, pluginVersion := "1.0" }

/-- Sweep row: enabled but the plugin is absent from the registry. -/
def psUnknown : PluginSetting :=
  { orgId := 3, pluginId := "ghost", enabled := true, pluginVersion := "1.0" }

/-- Sweep row: enabled, version already equals the registry version. -/
def psSame : PluginSetting :=
  { orgId := 4, pluginId := "app", enabled := true, pluginVersion := "2.0" }

/-- Concrete data: the settings rows of the sweep environment. -/
def settingsW : List PluginSetting := [psEnabledDiff, psDisabled, psUnknown, psSame]

/-- Concrete environment for the startup sweep. -/
def envW5 : Env := { envW1 with getPluginSettings := .ok settingsW }

/-- Concrete data: an enabled notification for plugin "app". -/
def eventEn : PluginStateChangedEvent := { pluginId := "app", orgId := 1, enabled := true }

/-- Concrete data: a disabled notification for plugin "app". -/
def eventDis : PluginStateChangedEvent := { pluginId := "app", orgId := 1, enabled := false }

/-- Concrete data: an enabled notification for an unknown plugin. -/
def eventMissing : PluginStateChangedEvent :=
  { pluginId := "ghost", orgId := 1, enabled := true }

/-- Concrete data: the empty store state. -/
def sW : StoreState := { dashboards := fun _ => none, versions := fun _ => none }

/-- Concrete data: the import request the sync pass builds for wPostRec
in envW6. -/
def reqW : ImportDashboardRequest :=
  { pluginId := "app"
    user := { userId := 0, orgRole := ROLE_ADMIN, orgId := 1 }
    path := "d3.json"
    folderId := 0
    dashboard := "d3.json"
    overwrite := true
    inputs := none }

theorem applyK_wr_indep {R : Type} (steps : List (KStep R)) (h : hasWr steps = true) :
    ∀ o₁ o₂ : Option R, applyK steps o₁ = applyK steps o₂ := by
  induction steps with
  | nil => simp [hasWr] at h
  | cons st rest ih =>
    intro o₁ o₂
    cases st with
    | idk => exact ih (by simpa [hasWr] using h) o₁ o₂
    | wr v => simp [applyK, KStep.app]
    | filt p => exact ih (by simpa [hasWr] using h) _ _

theorem applyK_nowr_cases {R : Type} (steps : List (KStep R)) (h : hasWr steps = false) :
    ∀ o : Option R, applyK steps o = o ∨ applyK steps o = none := by
  induction steps with
  | nil => intro o; left; rfl
  | cons st rest ih =>
    intro o
    cases st with
    | idk => exact ih (by simpa [hasWr] using h) o
    | wr v => simp [hasWr] at h
    | filt p =>
      have hr : hasWr rest = false := by simpa [hasWr] using h
      show applyK rest ((KStep.filt p).app o) = o ∨ applyK rest ((KStep.filt p).app o) = none
      cases o with
      | none => exact ih hr none
      | some r =>
        cases hp : p r with
        | true =>
          have : (KStep.filt p).app (some r) = some r := by simp [KStep.app, hp]
          rw [this]
          exact ih hr (some r)
        | false =>
          have : (KStep.filt p).app (some r) = none := by simp [KStep.app, hp]
          rw [this]
          right
          rcases ih hr none with h1 | h1
          · exact h1
          · exact h1

theorem filt_app_idem {R : Type} (p : R → Bool) (o : Option R) :
    (KStep.filt p).app ((KStep.filt p).app o) = (KStep.filt p).app o := by
  cases o with
  | none => rfl
  | some r =>
    cases hp : p r with
    | true => simp [KStep.app, hp]
    | false => simp [KStep.app, hp]

theorem applyK_nowr_idem {R : Type} (steps : List (KStep R)) (h : hasWr steps = false) :
    ∀ o : Option R, applyK steps (applyK steps o) = applyK steps o := by
  induction steps with
  | nil => intro o; rfl
  | cons st rest ih =>
    intro o
    cases st with
    | idk => exact ih (by simpa [hasWr] using h) o
    | wr v => simp [hasWr] at h
    | filt p =>
      have hr : hasWr rest = false := by simpa [hasWr] using h
      show applyK rest ((KStep.filt p).app (applyK rest ((KStep.filt p).app o))) =
        applyK rest ((KStep.filt p).app o)
      rcases applyK_nowr_cases rest hr ((KStep.filt p).app o) with hz | hz
      · rw [hz, filt_app_idem p o]
        exact hz
      · rw [hz]
        show applyK rest none = none
        rcases applyK_nowr_cases rest hr none with h1 | h1
        · exact h1
        · exact h1

theorem applyK_idem {R : Type} (steps : List (KStep R)) (o : Option R) :
    applyK steps (applyK steps o) = applyK steps o := by
  cases h : hasWr steps with
  | true => exact applyK_wr_indep steps h _ o
  | false => exact applyK_nowr_idem steps h o

theorem applyEffect_dash (env : Env) (s : StoreState) (e : Effect) (k : Int × String) :
    (applyEffect env s e).dashboards k = (dashKStep env k e).app (s.dashboards k) := by
  cases e with
  | deleteDashboard i o =>
    cases h : effectOk env (Effect.deleteDashboard i o) with
    | false => simp [applyEffect, h, dashKStep, KStep.app]
    | true =>
      simp only [applyEffect, h, if_true, applyEffectOk, dashKStep, KStep.app]
      cases hd : s.dashboards k with
      | none => rfl
      | some d => cases hc : (k.1 == o && d.id == i) <;> simp [hc]
  | importDashboard req =>
    cases h : effectOk env (Effect.importDashboard req) with
    | false => simp [applyEffect, h, dashKStep, KStep.app]
    | true =>
      simp only [applyEffect, h, if_true, applyEffectOk, dashKStep, Bool.true_and]
      cases hc : (k.1 == req.user.orgId && k.2 == req.path) <;> simp [hc, KStep.app]
  | updatePluginSettingVersion o p v =>
    cases h : effectOk env (Effect.updatePluginSettingVersion o p v) with
    | false => simp [applyEffect, h, dashKStep, KStep.app]
    | true => simp [applyEffect, h, applyEffectOk, dashKStep, KStep.app]

theorem applyEffect_ver (env : Env) (s : StoreState) (e : Effect) (k : Int × String) :
    (applyEffect env s e).versions k = (verKStep env k e).app (s.versions k) := by
  cases e with
  | deleteDashboard i o =>
    cases h : effectOk env (Effect.deleteDashboard i o) with
    | false => simp [applyEffect, h, verKStep, KStep.app]
    | true => simp [applyEffect, h, applyEffectOk, verKStep, KStep.app]
  | importDashboard req =>
    cases h : effectOk env (Effect.importDashboard req) with
    | false => simp [applyEffect, h, verKStep, KStep.app]
    | true => simp [applyEffect, h, applyEffectOk, verKStep, KStep.app]
  | updatePluginSettingVersion o p v =>
    cases h : effectOk env (Effect.updatePluginSettingVersion o p v) with
    | false => simp [applyEffect, h, verKStep, KStep.app]
    | true =>
      simp only [applyEffect, h, if_true, applyEffectOk, verKStep, Bool.true_and]
      cases hc : (k.1 == o && k.2 == p) <;> simp [hc, KStep.app]

theorem applyTrace_dash (env : Env) (tr : List Effect) :
    ∀ (s : StoreState) (k : Int × String),
      (applyTrace env s tr).dashboards k = applyK (tr.map (dashKStep env k)) (s.dashboards k) := by
  induction tr with
  | nil => intro s k; rfl
  | cons e rest ih =>
    intro s k
    show (applyTrace env (applyEffect env s e) rest).dashboards k = _
    rw [ih (applyEffect env s e) k, applyEffect_dash]
    rfl

theorem applyTrace_ver (env : Env) (tr : List Effect) :
    ∀ (s : StoreState) (k : Int × String),
      (applyTrace env s tr).versions k = applyK (tr.map (verKStep env k)) (s.versions k) := by
  induction tr with
  | nil => intro s k; rfl
  | cons e rest ih =>
    intro s k
    show (applyTrace env (applyEffect env s e) rest).versions k = _
    rw [ih (applyEffect env s e) k, applyEffect_ver]
    rfl

theorem storeState_eq {s t : StoreState}
    (hd : s.dashboards = t.dashboards) (hv : s.versions = t.versions) : s = t := by
  cases s with
  | mk d1 v1 =>
    cases t with
    | mk d2 v2 =>
      have hd2 : d1 = d2 := hd
      have hv2 : v1 = v2 := hv
      rw [hd2, hv2]

theorem applyTrace_idem (env : Env) (s : StoreState) (tr : List Effect) :
    applyTrace env (applyTrace env s tr) tr = applyTrace env s tr := by
  apply storeState_eq
  · funext k
    rw [applyTrace_dash env tr, applyTrace_dash env tr]
    exact applyK_idem _ _
  · funext k
    rw [applyTrace_ver env tr, applyTrace_ver env tr]
    exact applyK_idem _ _

theorem applyTrace_append (env : Env) (t1 t2 : List Effect) :
    ∀ s : StoreState, applyTrace env s (t1 ++ t2) = applyTrace env (applyTrace env s t1) t2 := by
  induction t1 with
  | nil => intro s; rfl
  | cons e rest ih =>
    intro s
    show applyTrace env (applyEffect env s e) (rest ++ t2) = _
    exact ih (applyEffect env s e)

theorem applyEffect_fail (env : Env) (s : StoreState) (e : Effect)
    (h : effectOk env e = false) : applyEffect env s e = s := by
  simp [applyEffect, h]

theorem applyEffect_versions_of_not_upd (env : Env) (s : StoreState) (e : Effect)
    (h : isUpd e = false) : (applyEffect env s e).versions = s.versions := by
  cases e with
  | deleteDashboard i o =>
    cases hk : effectOk env (Effect.deleteDashboard i o) <;>
      simp [applyEffect, hk, applyEffectOk]
  | importDashboard req =>
    cases hk : effectOk env (Effect.importDashboard req) <;>
      simp [applyEffect, hk, applyEffectOk]
  | updatePluginSettingVersion o p v => simp [isUpd] at h

theorem applyTrace_versions_of_no_upd (env : Env) (tr : List Effect)
    (h : ∀ e ∈ tr, isUpd e = false) :
    ∀ s : StoreState, (applyTrace env s tr).versions = s.versions := by
  induction tr with
  | nil => intro s; rfl
  | cons e rest ih =>
    intro s
    show (applyTrace env (applyEffect env s e) rest).versions = s.versions
    rw [ih (fun x hx => h x (List.mem_cons_of_mem e hx)) (applyEffect env s e),
      applyEffect_versions_of_not_upd env s e (h e (List.mem_cons_self e rest))]

theorem syncLoop_cons_err (env : Env) (orgID : Int) (d : PluginDashboard)
    (rest : List PluginDashboard) (e : Err) (h : (recordStep env orgID d).2 = .error e) :
    syncLoop env orgID (d :: rest) = ((recordStep env orgID d).1, .error e) := by
  unfold syncLoop
  rw [h]

theorem syncLoop_cons_ok (env : Env) (orgID : Int) (d : PluginDashboard)
    (rest : List PluginDashboard) (h : (recordStep env orgID d).2 = .ok ()) :
    syncLoop env orgID (d :: rest) =
      ((recordStep env orgID d).1 ++ (syncLoop env orgID rest).1,
        (syncLoop env orgID rest).2) := by
  conv_lhs => unfold syncLoop
  rw [h]

theorem syncLoop_append (env : Env) (orgID : Int) (pre rest : List PluginDashboard)
    (h : (syncLoop env orgID pre).2 = .ok ()) :
    syncLoop env orgID (pre ++ rest) =
      ((syncLoop env orgID pre).1 ++ (syncLoop env orgID rest).1,
        (syncLoop env orgID rest).2) := by
  induction pre with
  | nil => simp [syncLoop]
  | cons d pre ih =>
    cases hr : (recordStep env orgID d).2 with
    | error e =>
      rw [syncLoop_cons_err env orgID d pre e hr] at h
      cases h
    | ok u =>
      cases u
      have h2 : (syncLoop env orgID pre).2 = .ok () := by
        rw [syncLoop_cons_ok env orgID d pre hr] at h
        exact h
      rw [List.cons_append, syncLoop_cons_ok env orgID d (pre ++ rest) hr,
        syncLoop_cons_ok env orgID d pre hr, ih h2]
      simp [List.append_assoc]

theorem mem_autoUpdate_trace (env : Env) (d : PluginDashboard) (orgID : Int) (e : Effect)
    (h : e ∈ (autoUpdateAppDashboard env d orgID).1) :
    ∃ payload, e = Effect.importDashboard
      { pluginId := d.pluginId
        user := { userId := 0, orgRole := ROLE_ADMIN, orgId := orgID }
        path := d.reference
        folderId := 0
        dashboard := payload
        overwrite := true
        inputs := none } := by
  unfold autoUpdateAppDashboard at h
  cases hl : env.loadPluginDashboard d.pluginId d.reference with
  | error e2 =>
    rw [hl] at h
    cases h
  | ok payload =>
    rw [hl] at h
    refine ⟨payload, ?_⟩
    simpa using h

theorem mem_recordStep_trace (env : Env) (orgID : Int) (d : PluginDashboard) (e : Effect)
    (h : e ∈ (recordStep env orgID d).1) :
    e = Effect.deleteDashboard d.dashboardId orgID ∨
      ∃ payload, e = Effect.importDashboard
        { pluginId := d.pluginId
          user := { userId := 0, orgRole := ROLE_ADMIN, orgId := orgID }
          path := d.reference
          folderId := 0
          dashboard := payload
          overwrite := true
          inputs := none } := by
  unfold recordStep at h
  cases hrem : d.removed with
  | true =>
    rw [hrem] at h
    simp only [if_true] at h
    left
    simpa using h
  | false =>
    rw [hrem] at h
    simp only [Bool.false_eq_true, if_false] at h
    by_cases hrev : d.importedRevision ≠ d.revision
    · rw [if_pos hrev] at h
      right
      exact mem_autoUpdate_trace env d orgID e h
    · rw [if_neg hrev] at h
      cases h

theorem recordStep_no_upd (env : Env) (orgID : Int) (d : PluginDashboard) :
    ∀ e ∈ (recordStep env orgID d).1, isUpd e = false := by
  intro e he
  rcases mem_recordStep_trace env orgID d e he with h | ⟨p, h⟩ <;> rw [h] <;> rfl

theorem mem_syncLoop_trace (env : Env) (orgID : Int) (l : List PluginDashboard) (e : Effect)
    (h : e ∈ (syncLoop env orgID l).1) :
    ∃ d ∈ l, e ∈ (recordStep env orgID d).1 := by
  induction l with
  | nil => cases h
  | cons d rest ih =>
    cases hr : (recordStep env orgID d).2 with
    | error e2 =>
      rw [syncLoop_cons_err env orgID d rest e2 hr] at h
      exact ⟨d, List.mem_cons_self d rest, h⟩
    | ok u =>
      cases u
      rw [syncLoop_cons_ok env orgID d rest hr] at h
      rcases List.mem_append.mp h with h2 | h2
      · exact ⟨d, List.mem_cons_self d rest, h2⟩
      · obtain ⟨d2, hd2, he2⟩ := ih h2
        exact ⟨d2, List.mem_cons_of_mem d hd2, he2⟩

theorem syncLoop_no_upd (env : Env) (orgID : Int) (l : List PluginDashboard) :
    ∀ e ∈ (syncLoop env orgID l).1, isUpd e = false := by
  intro e he
  obtain ⟨d, _, hd⟩ := mem_syncLoop_trace env orgID l e he
  exact recordStep_no_upd env orgID d e hd

theorem syncPD_list_err (env : Env) (p : PluginDTO) (orgID : Int) (e : Err)
    (h : env.listPluginDashboards orgID p.id = .error e) :
    syncPluginDashboards env p orgID = [] := by
  unfold syncPluginDashboards
  rw [h]

theorem syncPD_loop_err (env : Env) (p : PluginDTO) (orgID : Int)
    (items : List PluginDashboard) (e : Err)
    (hl : env.listPluginDashboards orgID p.id = .ok items)
    (hr : (syncLoop env orgID items).2 = .error e) :
    syncPluginDashboards env p orgID = (syncLoop env orgID items).1 := by
  unfold syncPluginDashboards
  rw [hl]
  show (match (syncLoop env orgID items).2 with
    | .error _ => (syncLoop env orgID items).1
    | .ok _ =>
      match env.getPluginSettingById p.id orgID with
      | .error _ => (syncLoop env orgID items).1
      | .ok appSetting =>
        (syncLoop env orgID items).1 ++
          [Effect.updatePluginSettingVersion appSetting.orgId appSetting.pluginId
            p.info.version]) = (syncLoop env orgID items).1
  rw [hr]

theorem syncPD_get_err (env : Env) (p : PluginDTO) (orgID : Int)
    (items : List PluginDashboard) (e : Err)
    (hl : env.listPluginDashboards orgID p.id = .ok items)
    (hloop : (syncLoop env orgID items).2 = .ok ())
    (hg : env.getPluginSettingById p.id orgID = .error e) :
    syncPluginDashboards env p orgID = (syncLoop env orgID items).1 := by
  unfold syncPluginDashboards
  rw [hl]
  show (match (syncLoop env orgID items).2 with
    | .error _ => (syncLoop env orgID items).1
    | .ok _ =>
      match env.getPluginSettingById p.id orgID with
      | .error _ => (syncLoop env orgID items).1
      | .ok appSetting =>
        (syncLoop env orgID items).1 ++
          [Effect.updatePluginSettingVersion appSetting.orgId appSetting.pluginId
            p.info.version]) = (syncLoop env orgID items).1
  rw [hloop, hg]

theorem syncPD_ok (env : Env) (p : PluginDTO) (orgID : Int)
    (items : List PluginDashboard) (setting : PluginSetting)
    (hl : env.listPluginDashboards orgID p.id = .ok items)
    (hloop : (syncLoop env orgID items).2 = .ok ())
    (hg : env.getPluginSettingById p.id orgID = .ok setting) :
    syncPluginDashboards env p orgID =
      (syncLoop env orgID items).1 ++
        [Effect.updatePluginSettingVersion setting.orgId setting.pluginId
          p.info.version] := by
  unfold syncPluginDashboards
  rw [hl]
  show (match (syncLoop env orgID items).2 with
    | .error _ => (syncLoop env orgID items).1
    | .ok _ =>
      match env.getPluginSettingById p.id orgID with
      | .error _ => (syncLoop env orgID items).1
      | .ok appSetting =>
        (syncLoop env orgID items).1 ++
          [Effect.updatePluginSettingVersion appSetting.orgId appSetting.pluginId
            p.info.version]) = _
  rw [hloop, hg]

theorem teardownLoop_cons_err (env : Env) (d : Dashboard) (rest : List Dashboard) (e : Err)
    (h : env.deleteDashboard d.id d.orgId = .error e) :
    teardownLoop env (d :: rest) = ([Effect.deleteDashboard d.id d.orgId], .error e) := by
  unfold teardownLoop
  rw [h]

theorem teardownLoop_cons_ok (env : Env) (d : Dashboard) (rest : List Dashboard)
    (h : env.deleteDashboard d.id d.orgId = .ok ()) :
    teardownLoop env (d :: rest) =
      (Effect.deleteDashboard d.id d.orgId :: (teardownLoop env rest).1,
        (teardownLoop env rest).2) := by
  conv_lhs => unfold teardownLoop
  rw [h]

theorem teardownLoop_all_ok (env : Env) (l : List Dashboard)
    (h : ∀ d ∈ l, env.deleteDashboard d.id d.orgId = .ok ()) :
    teardownLoop env l = (l.map fun d => Effect.deleteDashboard d.id d.orgId, .ok ()) := by
  induction l with
  | nil => rfl
  | cons d rest ih =>
    rw [teardownLoop_cons_ok env d rest (h d (List.mem_cons_self d rest)),
      ih (fun x hx => h x (List.mem_cons_of_mem d hx))]
    rfl

theorem teardownLoop_fail (env : Env) (pre : List Dashboard) (f : Dashboard)
    (post : List Dashboard) (e : Err)
    (hpre : ∀ d ∈ pre, env.deleteDashboard d.id d.orgId = .ok ())
    (hf : env.deleteDashboard f.id f.orgId = .error e) :
    teardownLoop env (pre ++ f :: post) =
      ((pre.map fun d => Effect.deleteDashboard d.id d.orgId) ++
        [Effect.deleteDashboard f.id f.orgId], .error e) := by
  induction pre with
  | nil =>
    rw [List.nil_append, teardownLoop_cons_err env f post e hf]
    rfl
  | cons d pre ih =>
    rw [List.cons_append,
      teardownLoop_cons_ok env d (pre ++ f :: post) (hpre d (List.mem_cons_self d pre)),
      ih (fun x hx => hpre x (List.mem_cons_of_mem d hx))]
    rfl

theorem handle_enabled_found (env : Env) (event : PluginStateChangedEvent) (p : PluginDTO)
    (hen : event.enabled = true) (hp : env.plugin event.pluginId = some p) :
    handlePluginStateChanged env event = (syncPluginDashboards env p event.orgId, .ok ()) := by
  simp [handlePluginStateChanged, hen, hp]

theorem handle_enabled_missing (env : Env) (event : PluginStateChangedEvent)
    (hen : event.enabled = true) (hp : env.plugin event.pluginId = none) :
    handlePluginStateChanged env event =
      ([], .error (Err.notFound
        ("plugin " ++ event.pluginId ++ " not found. Could not sync plugin dashboards"))) := by
  simp [handlePluginStateChanged, hen, hp]

theorem handle_disabled_query_err (env : Env) (event : PluginStateChangedEvent) (e : Err)
    (hen : event.enabled = false)
    (hq : env.getDashboardsByPluginId event.pluginId event.orgId = .error e) :
    handlePluginStateChanged env event = ([], .error e) := by
  simp [handlePluginStateChanged, hen, hq]

theorem handle_disabled_query_ok (env : Env) (event : PluginStateChangedEvent)
    (ds : List Dashboard) (hen : event.enabled = false)
    (hq : env.getDashboardsByPluginId event.pluginId event.orgId = .ok ds) :
    handlePluginStateChanged env event = teardownLoop env ds := by
  simp [handlePluginStateChanged, hen, hq]

theorem mem_syncPD_import (env : Env) (p : PluginDTO) (orgID : Int)
    (req : ImportDashboardRequest)
    (h : Effect.importDashboard req ∈ syncPluginDashboards env p orgID) :
    ∃ items, env.listPluginDashboards orgID p.id = .ok items ∧
      Effect.importDashboard req ∈ (syncLoop env orgID items).1 := by
  cases hl : env.listPluginDashboards orgID p.id with
  | error e =>
    rw [syncPD_list_err env p orgID e hl] at h
    cases h
  | ok items =>
    refine ⟨items, rfl, ?_⟩
    cases hr : (syncLoop env orgID items).2 with
    | error e2 =>
      rw [syncPD_loop_err env p orgID items e2 hl hr] at h
      exact h
    | ok u =>
      cases u
      cases hg : env.getPluginSettingById p.id orgID with
      | error e3 =>
        rw [syncPD_get_err env p orgID items e3 hl hr hg] at h
        exact h
      | ok setting =>
        rw [syncPD_ok env p orgID items setting hl hr hg] at h
        rcases List.mem_append.mp h with h2 | h2
        · exact h2
        · simp at h2

theorem loop_cons_disabled (env : Env) (ps : PluginSetting) (rest : List PluginSetting)
    (h : ps.enabled = false) :
    updateAppDashboardsLoop env (ps :: rest) = updateAppDashboardsLoop env rest := by
  simp [updateAppDashboardsLoop, h]

theorem loop_cons_absent (env : Env) (ps : PluginSetting) (rest : List PluginSetting)
    (hen : ps.enabled = true) (hp : env.plugin ps.pluginId = none) :
    updateAppDashboardsLoop env (ps :: rest) = updateAppDashboardsLoop env rest := by
  simp [updateAppDashboardsLoop, hen, hp]

theorem loop_cons_same (env : Env) (ps : PluginSetting) (rest : List PluginSetting)
    (pd : PluginDTO) (hen : ps.enabled = true) (hp : env.plugin ps.pluginId = some pd)
    (hv : pd.info.version = ps.pluginVersion) :
    updateAppDashboardsLoop env (ps :: rest) = updateAppDashboardsLoop env rest := by
  simp [updateAppDashboardsLoop, hen, hp, hv]

theorem loop_cons_diff (env : Env) (ps : PluginSetting) (rest : List PluginSetting)
    (pd : PluginDTO) (hen : ps.enabled = true) (hp : env.plugin ps.pluginId = some pd)
    (hv : pd.info.version ≠ ps.pluginVersion) :
    updateAppDashboardsLoop env (ps :: rest) =
      (pd, ps.orgId) :: updateAppDashboardsLoop env rest := by
  simp [updateAppDashboardsLoop, hen, hp, hv]

theorem mem_updateAppDashboardsLoop (env : Env) (l : List PluginSetting)
    (d : PluginDTO) (oid : Int) :
    (d, oid) ∈ updateAppDashboardsLoop env l ↔
      ∃ ps ∈ l, ps.enabled = true ∧ env.plugin ps.pluginId = some d ∧
        d.info.version ≠ ps.pluginVersion ∧ oid = ps.orgId := by
  induction l with
  | nil => simp [updateAppDashboardsLoop]
  | cons ps rest ih =>
    have skipStep : updateAppDashboardsLoop env (ps :: rest) = updateAppDashboardsLoop env rest →
        (¬(ps.enabled = true ∧ env.plugin ps.pluginId = some d ∧
          d.info.version ≠ ps.pluginVersion ∧ oid = ps.orgId)) →
        ((d, oid) ∈ updateAppDashboardsLoop env (ps :: rest) ↔
          ∃ q ∈ ps :: rest, q.enabled = true ∧ env.plugin q.pluginId = some d ∧
            d.info.version ≠ q.pluginVersion ∧ oid = q.orgId) := by
      intro heq hnot
      rw [heq, ih]
      constructor
      · rintro ⟨q, hq, hqs⟩
        exact ⟨q, List.mem_cons_of_mem ps hq, hqs⟩
      · rintro ⟨q, hq, h1, h2, h3, h4⟩
        rcases List.mem_cons.mp hq with rfl | hq2
        · exact absurd ⟨h1, h2, h3, h4⟩ hnot
        · exact ⟨q, hq2, h1, h2, h3, h4⟩
    cases hen : ps.enabled with
    | false =>
      refine skipStep (loop_cons_disabled env ps rest hen) ?_
      rintro ⟨h1, _⟩
      rw [hen] at h1
      cases h1
    | true =>
      cases hp : env.plugin ps.pluginId with
      | none =>
        refine skipStep (loop_cons_absent env ps rest hen hp) ?_
        rintro ⟨_, h2, _⟩
        rw [hp] at h2
        cases h2
      | some pd =>
        by_cases hv : pd.info.version = ps.pluginVersion
        · refine skipStep (loop_cons_same env ps rest pd hen hp hv) ?_
          rintro ⟨_, h2, h3, _⟩
          rw [hp] at h2
          injection h2 with h2
          rw [h2] at hv
          exact h3 hv
        · rw [loop_cons_diff env ps rest pd hen hp hv]
          simp only [List.mem_cons]
          constructor
          · rintro (heq | hmem)
            · have hd : d = pd := congrArg Prod.fst heq
              have ho : oid = ps.orgId := congrArg Prod.snd heq
              refine ⟨ps, Or.inl rfl, hen, ?_, ?_, ho⟩
              · rw [hd]; exact hp
              · rw [hd]; exact hv
            · obtain ⟨q, hq, hqs⟩ := ih.mp hmem
              exact ⟨q, Or.inr hq, hqs⟩
          · rintro ⟨q, hq, h1, h2, h3, h4⟩
            rcases hq with rfl | hq2
            · left
              rw [hp] at h2
              injection h2 with h2
              rw [h2, h4]
            · right
              exact ih.mpr ⟨q, hq2, h1, h2, h3, h4⟩

/-- Claim C1: in a sync pass, once a per-record step of step 2 fails
(after all earlier records succeeded), the pass performs no mutation for
any subsequent record, and UpdatePluginSettingVersion is never called,
so the recorded last-synchronized version is left unchanged. -/
theorem sync_pass_aborts_on_record_failure (env : Env) (p : PluginDTO) (orgID : Int)
    (pre : List PluginDashboard) (d : PluginDashboard) (post : List PluginDashboard)
    (e : Err) (s : StoreState)
    (hlist : env.listPluginDashboards orgID p.id = .ok (pre ++ d :: post))
    (hpre : (syncLoop env orgID pre).2 = .ok ())
    (hfail : (recordStep env orgID d).2 = .error e) :
    syncPluginDashboards env p orgID =
      (syncLoop env orgID pre).1 ++ (recordStep env orgID d).1 ∧
    (∀ o pid v, Effect.updatePluginSettingVersion o pid v ∉ syncPluginDashboards env p orgID) ∧
    (applyTrace env s (syncPluginDashboards env p orgID)).versions = s.versions := by
  have hloopEq : syncLoop env orgID (pre ++ d :: post) =
      ((syncLoop env orgID pre).1 ++ (recordStep env orgID d).1, .error e) := by
    rw [syncLoop_append env orgID pre (d :: post) hpre,
      syncLoop_cons_err env orgID d post e hfail]
  have hloop2 : (syncLoop env orgID (pre ++ d :: post)).2 = .error e := by
    rw [hloopEq]
  have htr : syncPluginDashboards env p orgID =
      (syncLoop env orgID pre).1 ++ (recordStep env orgID d).1 := by
    rw [syncPD_loop_err env p orgID (pre ++ d :: post) e hlist hloop2, hloopEq]
  have hnu : ∀ x ∈ syncPluginDashboards env p orgID, isUpd x = false := by
    intro x hx
    rw [syncPD_loop_err env p orgID (pre ++ d :: post) e hlist hloop2] at hx
    exact syncLoop_no_upd env orgID (pre ++ d :: post) x hx
  refine ⟨htr, ?_, applyTrace_versions_of_no_upd env _ hnu s⟩
  intro o pid v hmem
  have hu := hnu _ hmem
  simp [isUpd] at hu

/-- Witness for C1 at a concrete input: a three-record catalog where the
first (removed) record deletes fine, the second record's deletion fails,
and the third needs an import that is never attempted. -/
theorem sync_pass_aborts_on_record_failure_witness :
    (syncLoop envW1 1 [wOkRec]).2 = .ok () ∧
    (recordStep envW1 1 wFailRec).2 = .error wErr ∧
    (syncPluginDashboards envW1 pW 1 =
        (syncLoop envW1 1 [wOkRec]).1 ++ (recordStep envW1 1 wFailRec).1 ∧
      (∀ o pid v, Effect.updatePluginSettingVersion o pid v ∉ syncPluginDashboards envW1 pW 1) ∧
      (applyTrace envW1 sW (syncPluginDashboards envW1 pW 1)).versions = sW.versions) :=
  ⟨rfl, rfl,
    sync_pass_aborts_on_record_failure envW1 pW 1 [wOkRec] wFailRec [wPostRec] wErr sW
      rfl rfl rfl⟩

/-- Claim C4: a record whose removed flag is set is deleted and is never
re-imported, even when its imported revision differs from its revision. -/
theorem removed_record_deletion_only (env : Env) (orgID : Int) (dash : PluginDashboard)
    (hrem : dash.removed = true) :
    (recordStep env orgID dash).1 = [Effect.deleteDashboard dash.dashboardId orgID] ∧
    (recordStep env orgID dash).2 = env.deleteDashboard dash.dashboardId orgID ∧
    ∀ req, Effect.importDashboard req ∉ (recordStep env orgID dash).1 := by
  have h : recordStep env orgID dash =
      ([Effect.deleteDashboard dash.dashboardId orgID],
        env.deleteDashboard dash.dashboardId orgID) := by
    simp [recordStep, hrem]
  refine ⟨by rw [h], by rw [h], ?_⟩
  intro req hmem
  rw [h] at hmem
  rcases List.mem_singleton.mp hmem with heq
  exact Effect.noConfusion heq

/-- Witness for C4 at a concrete input: wFailRec is removed and has a
revision mismatch, yet only its deletion is attempted. -/
theorem removed_record_deletion_only_witness :
    (recordStep envW1 1 wFailRec).1 = [Effect.deleteDashboard 2 1] ∧
    (recordStep envW1 1 wFailRec).2 = envW1.deleteDashboard 2 1 ∧
    ∀ req, Effect.importDashboard req ∉ (recordStep envW1 1 wFailRec).1 :=
  removed_record_deletion_only envW1 1 wFailRec rfl

/-- Claim C7: an enabled notification for a plugin identifier absent
from the registry returns the NotFound error and performs zero store
mutations. -/
theorem enable_missing_plugin_notfound (env : Env) (event : PluginStateChangedEvent)
    (hen : event.enabled = true) (habs : env.plugin event.pluginId = none) :
    handlePluginStateChanged env event =
      ([], .error (Err.notFound
        ("plugin " ++ event.pluginId ++ " not found. Could not sync plugin dashboards"))) :=
  handle_enabled_missing env event hen habs

/-- Witness for C7 at a concrete input. -/
theorem enable_missing_plugin_notfound_witness :
    handlePluginStateChanged envW1 eventMissing =
      ([], .error (Err.notFound
        ("plugin " ++ "ghost" ++ " not found. Could not sync plugin dashboards"))) :=
  enable_missing_plugin_notfound envW1 eventMissing rfl rfl

/-- Claim C8: a sync pass over an empty catalog performs no deletion and
no import and, when the settings read-back succeeds, its only mutation
call is the write of the plugin's current version as the new
last-synchronized version. -/
theorem empty_catalog_advances_version (env : Env) (p : PluginDTO) (orgID : Int)
    (setting : PluginSetting)
    (hlist : env.listPluginDashboards orgID p.id = .ok [])
    (hget : env.getPluginSettingById p.id orgID = .ok setting) :
    syncPluginDashboards env p orgID =
      [Effect.updatePluginSettingVersion setting.orgId setting.pluginId p.info.version] := by
  have h := syncPD_ok env p orgID [] setting hlist rfl hget
  simpa [syncLoop] using h

/-- Witness for C8 at a concrete input. -/
theorem empty_catalog_advances_version_witness :
    syncPluginDashboards envW8 pW 1 =
      [Effect.updatePluginSettingVersion 1 "app" "2.0"] :=
  empty_catalog_advances_version envW8 pW 1 settingW rfl rfl

/-- Claim C2 counterexample: in envW1, an enabled notification for
plugin "app" triggers a sync pass in which the deletion of record
wFailRec (store identifier 2, organization 1) is called and fails, yet
the handler returns success — the failure inside the sync pass is not
returned to the handler's caller. -/
theorem handler_swallows_sync_error_cex :
    (handlePluginStateChanged envW1 eventEn).2 = Except.ok () ∧
    Effect.deleteDashboard 2 1 ∈ (handlePluginStateChanged envW1 eventEn).1 ∧
    envW1.deleteDashboard 2 1 = Except.error wErr := by
  refine ⟨rfl, ?_, rfl⟩
  decide

/-- Claim C2 (amended): the handler returns the first error it
encounters itself — the plugin-not-found error on an enabled
notification and the lookup or deletion error on a disabled
notification — but failures inside the sync pass triggered by an enabled
notification are logged and swallowed: the handler returns success
whenever the plugin is found. -/
theorem handler_error_propagation_amended (env : Env) (event : PluginStateChangedEvent) :
    (∀ p, event.enabled = true → env.plugin event.pluginId = some p →
      (handlePluginStateChanged env event).2 = Except.ok ()) ∧
    (event.enabled = true → env.plugin event.pluginId = none →
      (handlePluginStateChanged env event).2 = Except.error (Err.notFound
        ("plugin " ++ event.pluginId ++ " not found. Could not sync plugin dashboards"))) ∧
    (∀ e, event.enabled = false →
      env.getDashboardsByPluginId event.pluginId event.orgId = Except.error e →
      (handlePluginStateChanged env event).2 = Except.error e) ∧
    (∀ pre f post e, event.enabled = false →
      env.getDashboardsByPluginId event.pluginId event.orgId = Except.ok (pre ++ f :: post) →
      (∀ d ∈ pre, env.deleteDashboard d.id d.orgId = Except.ok ()) →
      env.deleteDashboard f.id f.orgId = Except.error e →
      (handlePluginStateChanged env event).2 = Except.error e) := by
  refine ⟨?_, ?_, ?_, ?_⟩
  · intro p hen hp
    rw [handle_enabled_found env event p hen hp]
  · intro hen hp
    rw [handle_enabled_missing env event hen hp]
  · intro e hen hq
    rw [handle_disabled_query_err env event e hen hq]
  · intro pre f post e hen hq hpre hf
    rw [handle_disabled_query_ok env event (pre ++ f :: post) hen hq,
      teardownLoop_fail env pre f post e hpre hf]

/-- Witness for the amended C2 at a concrete input: the handler returns
success on the enabled notification of envW1 even though its sync pass
failed. -/
theorem handler_error_propagation_amended_witness :
    (handlePluginStateChanged envW1 eventEn).2 = Except.ok () :=
  (handler_error_propagation_amended envW1 eventEn).1 pW rfl rfl

/-- Claim C3: a teardown pass for a plugin with N stored dashboards
makes exactly N deletion calls and zero import calls when every deletion
succeeds; the first deletion failure aborts the pass, the error is
returned to the caller, and the deletions already performed stay
applied. -/
theorem teardown_pass_deletions (env : Env) (event : PluginStateChangedEvent)
    (ds : List Dashboard) (s : StoreState)
    (hdis : event.enabled = false)
    (hq : env.getDashboardsByPluginId event.pluginId event.orgId = .ok ds) :
    ((∀ d ∈ ds, env.deleteDashboard d.id d.orgId = .ok ()) →
      handlePluginStateChanged env event =
        (ds.map fun d => Effect.deleteDashboard d.id d.orgId, .ok ()) ∧
      (handlePluginStateChanged env event).1.length = ds.length ∧
      ∀ req, Effect.importDashboard req ∉ (handlePluginStateChanged env event).1) ∧
    (∀ pre f post e, ds = pre ++ f :: post →
      (∀ d ∈ pre, env.deleteDashboard d.id d.orgId = .ok ()) →
      env.deleteDashboard f.id f.orgId = .error e →
      (handlePluginStateChanged env event).2 = .error e ∧
      (handlePluginStateChanged env event).1 =
        (pre.map fun d => Effect.deleteDashboard d.id d.orgId) ++
          [Effect.deleteDashboard f.id f.orgId] ∧
      applyTrace env s (handlePluginStateChanged env event).1 =
        applyTrace env s (pre.map fun d => Effect.deleteDashboard d.id d.orgId)) := by
  have hh := handle_disabled_query_ok env event ds hdis hq
  constructor
  · intro hall
    rw [hh, teardownLoop_all_ok env ds hall]
    refine ⟨rfl, by simp, ?_⟩
    intro req hmem
    simp only [List.mem_map] at hmem
    obtain ⟨d2, _, habs⟩ := hmem
    exact Effect.noConfusion habs
  · intro pre f post e hds hpre hf
    subst hds
    rw [hh, teardownLoop_fail env pre f post e hpre hf]
    have hok : effectOk env (Effect.deleteDashboard f.id f.orgId) = false := by
      simp [effectOk, hf]
    refine ⟨rfl, rfl, ?_⟩
    rw [applyTrace_append env (pre.map fun d => Effect.deleteDashboard d.id d.orgId)
      [Effect.deleteDashboard f.id f.orgId] s]
    show applyEffect env
      (applyTrace env s (pre.map fun d => Effect.deleteDashboard d.id d.orgId))
      (Effect.deleteDashboard f.id f.orgId) = _
    exact applyEffect_fail env _ _ hok

/-- Witness for C3 at a concrete input: two stored dashboards, both
deletions succeed, giving exactly two deletion calls and success. -/
theorem teardown_pass_deletions_witness :
    handlePluginStateChanged envW3 eventDis =
      ([Effect.deleteDashboard 1 1, Effect.deleteDashboard 2 1], Except.ok ()) :=
  ((teardown_pass_deletions envW3 eventDis [dashA, dashB] sW rfl rfl).1
    (fun _ _ => rfl)).1

/-- Claim C5: the startup sweep invokes a sync pass for (plugin, org)
exactly when some settings row is enabled, its plugin identifier is
found in the registry, and the registry version differs from the row's
recorded version; rows with absent plugins or an already-equal version
contribute nothing. -/
theorem startup_sweep_invocation_iff (env : Env) (settings : List PluginSetting)
    (h : env.getPluginSettings = .ok settings) (d : PluginDTO) (oid : Int) :
    (d, oid) ∈ updateAppDashboards env ↔
      ∃ ps ∈ settings, ps.enabled = true ∧ env.plugin ps.pluginId = some d ∧
        d.info.version ≠ ps.pluginVersion ∧ oid = ps.orgId := by
  have h2 : updateAppDashboards env = updateAppDashboardsLoop env settings := by
    unfold updateAppDashboards
    rw [h]
  rw [h2]
  exact mem_updateAppDashboardsLoop env settings d oid

/-- Witness for C5 at a concrete input: four rows (enabled-differs,
disabled, unknown plugin, enabled-equal). -/
theorem startup_sweep_invocation_iff_witness :
    (pW, (1 : Int)) ∈ updateAppDashboards envW5 ↔
      ∃ ps ∈ settingsW, ps.enabled = true ∧ envW5.plugin ps.pluginId = some pW ∧
        pW.info.version ≠ ps.pluginVersion ∧ (1 : Int) = ps.orgId :=
  startup_sweep_invocation_iff envW5 settingsW rfl pW 1

/-- Claim C6: running the sync pass a second time immediately after a
fully successful first pass, with the catalog records and every call
outcome unchanged in between, reproduces exactly the store state left by
the first run — same stored dashboards and an unchanged
last-synchronized version. -/
theorem sync_pass_idempotent (env : Env) (p : PluginDTO) (orgID : Int) (s : StoreState)
    (items : List PluginDashboard) (setting : PluginSetting)
    (_hlist : env.listPluginDashboards orgID p.id = .ok items)
    (_hloop : (syncLoop env orgID items).2 = .ok ())
    (_hget : env.getPluginSettingById p.id orgID = .ok setting)
    (_hupd : env.updatePluginSettingVersion setting.orgId setting.pluginId
      p.info.version = .ok ()) :
    applyTrace env (applyTrace env s (syncPluginDashboards env p orgID))
        (syncPluginDashboards env p orgID) =
      applyTrace env s (syncPluginDashboards env p orgID) :=
  applyTrace_idem env s (syncPluginDashboards env p orgID)

/-- Witness for C6 at a concrete input: the all-success environment over
a catalog with one deletion and one import. -/
theorem sync_pass_idempotent_witness :
    applyTrace envW6 (applyTrace envW6 sW (syncPluginDashboards envW6 pW 1))
        (syncPluginDashboards envW6 pW 1) =
      applyTrace envW6 sW (syncPluginDashboards envW6 pW 1) :=
  sync_pass_idempotent envW6 pW 1 sW itemsW settingW rfl rfl rfl rfl

/-- Claim C9: when every record of step 2 succeeded and the final
settings read or version write fails, the deletions and imports already
committed stay applied (no rollback), the recorded version is unchanged,
and the pass makes the version-write call at most once (no retry). -/
theorem final_step_failure_no_rollback (env : Env) (p : PluginDTO) (orgID : Int)
    (items : List PluginDashboard) (s : StoreState)
    (hlist : env.listPluginDashboards orgID p.id = .ok items)
    (hloop : (syncLoop env orgID items).2 = .ok ()) :
    (∀ e, env.getPluginSettingById p.id orgID = .error e →
      syncPluginDashboards env p orgID = (syncLoop env orgID items).1 ∧
      List.countP isUpd (syncPluginDashboards env p orgID) = 0 ∧
      (applyTrace env s (syncPluginDashboards env p orgID)).versions = s.versions) ∧
    (∀ setting e, env.getPluginSettingById p.id orgID = .ok setting →
      env.updatePluginSettingVersion setting.orgId setting.pluginId
        p.info.version = .error e →
      syncPluginDashboards env p orgID =
        (syncLoop env orgID items).1 ++
          [Effect.updatePluginSettingVersion setting.orgId setting.pluginId
            p.info.version] ∧
      List.countP isUpd (syncPluginDashboards env p orgID) = 1 ∧
      applyTrace env s (syncPluginDashboards env p orgID) =
        applyTrace env s (syncLoop env orgID items).1 ∧
      (applyTrace env s (syncPluginDashboards env p orgID)).versions = s.versions) := by
  constructor
  · intro e hg
    have htr := syncPD_get_err env p orgID items e hlist hloop hg
    have hnu : ∀ x ∈ syncPluginDashboards env p orgID, isUpd x = false := by
      intro x hx
      rw [htr] at hx
      exact syncLoop_no_upd env orgID items x hx
    refine ⟨htr, ?_, applyTrace_versions_of_no_upd env _ hnu s⟩
    rw [List.countP_eq_zero]
    intro a ha
    have hu := hnu a ha
    simp [hu]
  · intro setting e hg hupd
    have htr := syncPD_ok env p orgID items setting hlist hloop hg
    have hok : effectOk env (Effect.updatePluginSettingVersion setting.orgId
        setting.pluginId p.info.version) = false := by
      simp [effectOk, hupd]
    have hstate : applyTrace env s (syncPluginDashboards env p orgID) =
        applyTrace env s (syncLoop env orgID items).1 := by
      rw [htr, applyTrace_append env (syncLoop env orgID items).1
        [Effect.updatePluginSettingVersion setting.orgId setting.pluginId p.info.version] s]
      show applyEffect env (applyTrace env s (syncLoop env orgID items).1) _ = _
      exact applyEffect_fail env _ _ hok
    refine ⟨htr, ?_, hstate, ?_⟩
    · rw [htr, List.countP_append]
      have h0 : List.countP isUpd (syncLoop env orgID items).1 = 0 := by
        rw [List.countP_eq_zero]
        intro a ha
        have hu := syncLoop_no_upd env orgID items a ha
        simp [hu]
      rw [h0]
      rfl
    · rw [hstate]
      exact applyTrace_versions_of_no_upd env _ (syncLoop_no_upd env orgID items) s

/-- Witness for C9 at a concrete input: every record succeeds but the
version write fails. -/
theorem final_step_failure_no_rollback_witness :
    syncPluginDashboards envW9 pW 1 =
      (syncLoop envW9 1 itemsW).1 ++
        [Effect.updatePluginSettingVersion 1 "app" "2.0"] ∧
    List.countP isUpd (syncPluginDashboards envW9 pW 1) = 1 ∧
    applyTrace envW9 sW (syncPluginDashboards envW9 pW 1) =
      applyTrace envW9 sW (syncLoop envW9 1 itemsW).1 ∧
    (applyTrace envW9 sW (syncPluginDashboards envW9 pW 1)).versions = sW.versions :=
  (final_step_failure_no_rollback envW9 pW 1 itemsW sW rfl rfl).2 settingW wErr rfl rfl

/-- Claim C10: every import issued during a sync pass carries the fixed
synthetic principal (user identifier 0, Admin role, target organization),
folder identifier 0, overwrite set, and no template inputs. -/
theorem import_request_fixed_principal (env : Env) (p : PluginDTO) (orgID : Int)
    (req : ImportDashboardRequest)
    (h : Effect.importDashboard req ∈ syncPluginDashboards env p orgID) :
    req.user = { userId := 0, orgRole := ROLE_ADMIN, orgId := orgID } ∧
    req.folderId = 0 ∧ req.overwrite = true ∧ req.inputs = none := by
  obtain ⟨items, _, hmem⟩ := mem_syncPD_import env p orgID req h
  obtain ⟨d2, _, hrec⟩ := mem_syncLoop_trace env orgID items _ hmem
  rcases mem_recordStep_trace env orgID d2 _ hrec with habs | ⟨payload, heq⟩
  · exact Effect.noConfusion habs
  · injection heq with heq2
    subst heq2
    exact ⟨rfl, rfl, rfl, rfl⟩

/-- Witness for C10 at a concrete input: the import request built for
wPostRec in the all-success environment. -/
theorem import_request_fixed_principal_witness :
    reqW.user = { userId := 0, orgRole := ROLE_ADMIN, orgId := 1 } ∧
    reqW.folderId = 0 ∧ reqW.overwrite = true ∧ reqW.inputs = none :=
  import_request_fixed_principal envW6 pW 1 reqW (by decide)

end DashboardUpdater
